import Mathlib

/-!
Verification of the kibanaExporter repository's object-tree transformation
engine and its surrounding batch plumbing.

The development shallowly embeds the Python sources:
  - `modify_ndjson_env.py`   : `modify_value`, `modify_dict`, `modify_ndjson_file`
  - `kibana_object_modifier.py` : `modify_with_prefix` (here `modifyWithPrefix`),
    the id-injection step of `extract_and_modify_attributes` (here `inject_id`)
  - `export_kibana_data.py`  : `parse_saved_objects`
  - `kibana_export_tool.py`  : `validate_spaces` and the pre-flight part of `main`

JSON values are modeled by the inductive type `Json`; Python's `json.loads`
and `json.dumps` (default options: `ensure_ascii=True`, separators `", "` and
`": "`) are embedded as the executable functions `loads` and `dumps`.

Modeling conventions:
  - A Python function that can raise an uncaught exception is embedded as a
    function into `Option`, with `none` standing for the raised exception.
  - Recursion through re-parsed embedded JSON is not structurally decreasing,
    so every recursive function over `Json` takes an explicit fuel argument
    and returns `none` when the fuel runs out; theorems are stated either
    for every fuel or conditionally on a `some` result, so the fuel artifact
    never produces a spurious positive result.
  - JSON numbers are modeled as arbitrary-precision integers (`Int`), which
    matches Python's `int`.  Documents containing float literals
    (`1.5`, `1e3`, `NaN`, `Infinity`) are outside the model: `loads` returns
    `none` on them where Python would produce a `float`.
  - `\uXXXX` escapes are decoded code-unit-wise (no surrogate-pair joining).
-/

/-- JSON value tree, the data model shared by all four scripts: the result
type of Python's `json.loads` restricted to integer numbers. -/
inductive Json : Type where
  | null : Json
  | bool (b : Bool) : Json
  | num (n : Int) : Json
  | str (s : String) : Json
  | arr (xs : List Json) : Json
  | obj (kvs : List (String × Json)) : Json

/-- Collects a list of optional results, failing if any element failed.  This
is how a Python list/dict comprehension behaves when the body can raise: the
first raised exception aborts the whole comprehension. -/
def optList {α : Type} : List (Option α) → Option (List α)
  | [] => some []
  | none :: _ => none
  | some a :: rest => (optList rest).map (a :: ·)

/-- Lookup in a Python dict modeled as an ordered association list
(first binding wins; parsed JSON objects never hold duplicate keys). -/
def dictLookup : List (String × Json) → String → Option Json
  | [], _ => none
  | (k, v) :: rest, key => if k = key then some v else dictLookup rest key

/-- Python's `d[key] = w` on an insertion-ordered dict: an existing key keeps
its position and gets the new value; a new key is appended at the end. -/
def dictSet : List (String × Json) → String → Json → List (String × Json)
  | [], key, w => [(key, w)]
  | (k, v) :: rest, key, w =>
      if k = key then (key, w) :: rest else (k, v) :: dictSet rest key w

/-- Python's `c in s` for a single character `c` (used for the wildcard
marker test `'*' in value`). -/
def strHas (s : String) (c : Char) : Bool := s.data.contains c

/-- Python's `s.startswith(p)`. -/
def strStarts (s p : String) : Bool := p.data.isPrefixOf s.data

/-- Contiguous-infix test on lists, used to embed Python's substring
containment `pat in s` for strings. -/
def listInfix (pat : List Char) : List Char → Bool
  | [] => pat.isEmpty
  | c :: rest => pat.isPrefixOf (c :: rest) || listInfix pat rest

/-- Python's `pat in s` for strings (substring containment). -/
def strHasSub (s pat : String) : Bool := listInfix pat.data s.data

/-- Decimal digits of a natural number, most significant first, computed with
fuel (`natStr` supplies enough).  Digits come from `Nat.digitChar`, always
applied to arguments below 10. -/
def natDigits : Nat → Nat → List Char
  | 0, _ => []
  | fuel + 1, n =>
      if n < 10 then [Nat.digitChar n]
      else natDigits fuel (n / 10) ++ [Nat.digitChar (n % 10)]

/-- Python's `str(n)` for a non-negative integer. -/
def natStr (n : Nat) : String := ⟨natDigits (n + 1) n⟩

/-- Python's `str(i)` (equivalently `repr(i)`) for an `int`, also the form
`json.dumps` emits for integers. -/
def intStr (i : Int) : String :=
  if i < 0 then "-" ++ natStr i.natAbs else natStr i.natAbs

/-- Lower-case hexadecimal digit, for `\uXXXX` escapes in `dumps`. -/
def hexDigit (n : Nat) : Char :=
  if n < 10 then Char.ofNat (48 + n) else Char.ofNat (87 + n)

/-- Four-digit hexadecimal rendering of a code unit below 0x10000. -/
def hex4 (n : Nat) : List Char :=
  [hexDigit (n / 4096 % 16), hexDigit (n / 256 % 16),
   hexDigit (n / 16 % 16), hexDigit (n % 16)]

/-- How `json.dumps` (with its default `ensure_ascii=True`) renders one
character inside a string literal. -/
def escapeChar (c : Char) : List Char :=
  if c == '"' then ['\\', '"']
  else if c == '\\' then ['\\', '\\']
  else if c == '\n' then ['\\', 'n']
  else if c == '\t' then ['\\', 't']
  else if c == '\r' then ['\\', 'r']
  else if c.toNat == 8 then ['\\', 'b']
  else if c.toNat == 12 then ['\\', 'f']
  else if c.toNat < 32 || c.toNat > 126 then
    if c.toNat ≤ 65535 then '\\' :: 'u' :: hex4 c.toNat
    else
      ('\\' :: 'u' :: hex4 (55296 + (c.toNat - 65536) / 1024)) ++
      ('\\' :: 'u' :: hex4 (56320 + (c.toNat - 65536) % 1024))
  else [c]

/-- JSON string literal as emitted by `json.dumps`. -/
def escapeString (s : String) : String :=
  ⟨'"' :: (s.data.flatMap escapeChar) ++ ['"']⟩

/-- Python's `json.dumps` with default options (item separator `", "`,
key separator `": "`).  Fueled; `none` only on fuel exhaustion, since the
Python function is total on the values `Json` models. -/
def dumps : Nat → Json → Option String
  | 0, _ => none
  | _ + 1, .null => some "null"
  | _ + 1, .bool true => some "true"
  | _ + 1, .bool false => some "false"
  | _ + 1, .num n => some (intStr n)
  | _ + 1, .str s => some (escapeString s)
  | fuel + 1, .arr xs =>
      (optList (xs.map (fun x => dumps fuel x))).map
        (fun parts => "[" ++ String.intercalate ", " parts ++ "]")
  | fuel + 1, .obj kvs =>
      (optList (kvs.map (fun kv => (dumps fuel kv.2).map
          (fun s => escapeString kv.1 ++ ": " ++ s)))).map
        (fun parts => "\x7b" ++ String.intercalate ", " parts ++ "\x7d")

/-- Skips the whitespace `json.loads` skips between tokens. -/
def skipWs : List Char → List Char
  | [] => []
  | c :: cs =>
      if c == ' ' || c == '\t' || c == '\n' || c == '\r' then skipWs cs
      else c :: cs

/-- Value of one hexadecimal digit, for `\uXXXX` escapes in `loads`. -/
def hexVal (c : Char) : Option Nat :=
  if '0' ≤ c ∧ c ≤ '9' then some (c.toNat - 48)
  else if 'a' ≤ c ∧ c ≤ 'f' then some (c.toNat - 87)
  else if 'A' ≤ c ∧ c ≤ 'F' then some (c.toNat - 55)
  else none

/-- Decodes one short backslash escape of a JSON string literal (the table
of `json.decoder.BACKSLASH`). -/
def escDecode : Char → Option Char
  | '"' => some '"'
  | '\\' => some '\\'
  | '/' => some '/'
  | 'b' => some (Char.ofNat 8)
  | 'f' => some (Char.ofNat 12)
  | 'n' => some '\n'
  | 'r' => some '\r'
  | 't' => some '\t'
  | _ => none

/-- Parses the body of a JSON string literal (the opening quote already
consumed), returning the decoded characters and the remaining input.  Strict
mode, as in `json.loads`: raw control characters are rejected. -/
def parseStringChars : List Char → Option (List Char × List Char)
  | [] => none
  | '"' :: rest => some ([], rest)
  | '\\' :: e :: rest =>
      if e == 'u' then
        match rest with
        | a :: b :: c :: d :: rest2 =>
            match hexVal a, hexVal b, hexVal c, hexVal d with
            | some x, some y, some z, some w =>
                (parseStringChars rest2).map
                  (fun p => (Char.ofNat (4096 * x + 256 * y + 16 * z + w) :: p.1, p.2))
            | _, _, _, _ => none
        | _ => none
      else
        match escDecode e with
        | some c => (parseStringChars rest).map (fun p => (c :: p.1, p.2))
        | none => none
  | c :: rest =>
      if c.toNat < 32 then none
      else (parseStringChars rest).map (fun p => (c :: p.1, p.2))

/-- Splits a leading run of decimal digits from the input. -/
def takeDigits : List Char → List Char × List Char
  | [] => ([], [])
  | c :: rest =>
      if '0' ≤ c ∧ c ≤ '9' then
        let p := takeDigits rest
        (c :: p.1, p.2)
      else ([], c :: rest)

/-- Numeric value of a digit run. -/
def digitsToNat (acc : Nat) : List Char → Nat
  | [] => acc
  | c :: rest => digitsToNat (10 * acc + (c.toNat - 48)) rest

/-- Parses a JSON number token.  The JSON grammar's integer part is accepted
(optional minus, no leading zeros); a following `.`, `e` or `E` - a float
literal, which Python would parse to a `float` - is outside this model and
makes the parse fail. -/
def parseNumTok (cs : List Char) : Option (Json × List Char) :=
  let neg : Bool := match cs with | '-' :: _ => true | _ => false
  let cs1 := match cs with | '-' :: r => r | _ => cs
  match takeDigits cs1 with
  | ([], _) => none
  | (d :: ds, rest) =>
      if d == '0' && !ds.isEmpty then none
      else
        match rest with
        | c :: _ =>
            if c == '.' || c == 'e' || c == 'E' then none
            else
              some (.num (if neg then -(Int.ofNat (digitsToNat 0 (d :: ds)))
                          else Int.ofNat (digitsToNat 0 (d :: ds))), rest)
        | [] =>
            some (.num (if neg then -(Int.ofNat (digitsToNat 0 (d :: ds)))
                        else Int.ofNat (digitsToNat 0 (d :: ds))), rest)

/-- Parser mode: a whole value, the elements of an array after its `[`, or
the members of an object after its opening brace, with the part already
parsed accumulated. -/
inductive PMode : Type where
  | val : PMode
  | arrElems (acc : List Json) : PMode
  | objElems (acc : List (String × Json)) : PMode

/-- Recursive-descent core of `json.loads`.  Fueled: each recursive call
consumes one unit, and `loads` supplies fuel exceeding any possible recursion
depth for its input.  Objects are built with `dictSet`, so a duplicate key
keeps its first position and its last value, as in Python. -/
def parseRun : Nat → PMode → List Char → Option (Json × List Char)
  | 0, _, _ => none
  | fuel + 1, .val, cs =>
      match skipWs cs with
      | [] => none
      | c :: rest =>
          if c == '\x7b' then
            match skipWs rest with
            | '\x7d' :: rest2 => some (.obj [], rest2)
            | _ => parseRun fuel (.objElems []) rest
          else if c == '[' then
            match skipWs rest with
            | ']' :: rest2 => some (.arr [], rest2)
            | _ => parseRun fuel (.arrElems []) rest
          else if c == '"' then
            (parseStringChars rest).map (fun p => (.str ⟨p.1⟩, p.2))
          else if c == 't' then
            match rest with
            | 'r' :: 'u' :: 'e' :: r => some (.bool true, r)
            | _ => none
          else if c == 'f' then
            match rest with
            | 'a' :: 'l' :: 's' :: 'e' :: r => some (.bool false, r)
            | _ => none
          else if c == 'n' then
            match rest with
            | 'u' :: 'l' :: 'l' :: r => some (.null, r)
            | _ => none
          else parseNumTok (c :: rest)
  | fuel + 1, .arrElems acc, cs =>
      match parseRun fuel .val cs with
      | none => none
      | some (v, rest) =>
          match skipWs rest with
          | ',' :: rest2 => parseRun fuel (.arrElems (acc ++ [v])) rest2
          | ']' :: rest2 => some (.arr (acc ++ [v]), rest2)
          | _ => none
  | fuel + 1, .objElems acc, cs =>
      match skipWs cs with
      | '"' :: rest =>
          match parseStringChars rest with
          | none => none
          | some (k, rest2) =>
              match skipWs rest2 with
              | ':' :: rest3 =>
                  match parseRun fuel .val rest3 with
                  | none => none
                  | some (v, rest4) =>
                      match skipWs rest4 with
                      | ',' :: rest5 => parseRun fuel (.objElems (dictSet acc ⟨k⟩ v)) rest5
                      | '\x7d' :: rest5 => some (.obj (dictSet acc ⟨k⟩ v), rest5)
                      | _ => none
              | _ => none
      | _ => none

/-- Python's `json.loads`: parse one JSON document, requiring only
whitespace after it. -/
def loads (s : String) : Option Json :=
  match parseRun (2 * s.length + 4) .val s.data with
  | some (j, rest) => if skipWs rest = [] then some j else none
  | none => none

/-- Embedding of `modify_value` from `modify_ndjson_env.py`:

    def modify_value(value, env_prefix):
        if isinstance(value, str):
            try:
                parsed = json.loads(value)
                modified = modify_dict(parsed, env_prefix)
                return json.dumps(modified)
            except (json.JSONDecodeError, TypeError):
                if '*' in value and not value.startswith(f"...:"):
                    return f"...:" ++ value
                return value
        elif isinstance(value, list): ...
        elif isinstance(value, dict): ...
        return value

The string branch: when `json.loads` succeeds, Python calls `modify_dict` on
the parsed value; `modify_dict` does `d.items()`, which raises an uncaught
`AttributeError` (`none` here) whenever the parsed value is not a dict - the
`except` clause catches only `JSONDecodeError` and `TypeError`.  When
`json.loads` fails with `JSONDecodeError`, the leaf rule runs.  The dict
branch inlines `modify_dict`'s comprehension (see `modify_dict` below and the
bridging lemmas `modify_value_str_parsed` / `modify_value_obj`). -/
def modify_value : Nat → Json → String → Option Json
  | 0, _, _ => none
  | fuel + 1, .str s, env =>
      match loads s with
      | some (.obj kvs) =>
          match optList (kvs.map (fun kv => (modify_value fuel kv.2 env).map (fun w => (kv.1, w)))) with
          | some kvs2 => (dumps fuel (.obj kvs2)).map Json.str
          | none => none
      | some _ => none
      | none =>
          some (.str (if strHas s '*' && !(strStarts s (env ++ ":"))
                      then env ++ ":" ++ s else s))
  | fuel + 1, .arr xs, env =>
      (optList (xs.map (fun x => modify_value fuel x env))).map Json.arr
  | fuel + 1, .obj kvs, env =>
      (optList (kvs.map (fun kv => (modify_value fuel kv.2 env).map (fun w => (kv.1, w))))).map Json.obj
  | _ + 1, v, _ => some v

/-- Embedding of `modify_dict` from `modify_ndjson_env.py`:

    def modify_dict(d, env_prefix):
        return {k: modify_value(v, env_prefix) for k, v in d.items()}

On a non-dict argument `d.items()` raises `AttributeError`, embedded as
`none`. -/
def modify_dict (fuel : Nat) (d : Json) (env : String) : Option Json :=
  match d with
  | .obj kvs =>
      (optList (kvs.map (fun kv => (modify_value fuel kv.2 env).map (fun w => (kv.1, w))))).map Json.obj
  | _ => none

/-- Python's `str()` on the scalar values that can reach the leaf branch of
`modify_with_prefix` (`kibana_object_modifier.py`).  That branch is only
taken for non-dict, non-list values, so the `arr`/`obj` cases below are
unreachable there and given a dummy value. -/
def pyStr : Json → String
  | .null => "None"
  | .bool true => "True"
  | .bool false => "False"
  | .num n => intStr n
  | .str s => s
  | .arr _ => ""
  | .obj _ => ""

/-- Embedding of `modify_with_prefix` from `kibana_object_modifier.py`:

    def modify_with_prefix(obj, prefix):
        if isinstance(obj, dict):
            ... recurse into dict values, lists item-wise, and apply
                f"..." if '*' in str(value) else value to the rest ...
        elif isinstance(obj, list):
            return [modify_with_prefix(item, prefix) for item in obj]
        else:
            return f"..." if '*' in str(obj) else obj

Inside the dict branch the source dispatches on each value exactly as the
top level does on `obj` (dict values recurse, list values map the recursion,
other values get the leaf rule), so the embedding recurses uniformly through
values.  The function is total in Python; `none` arises only from fuel
exhaustion. -/
def modifyWithPrefix : Nat → Json → String → Option Json
  | 0, _, _ => none
  | fuel + 1, .obj kvs, pfx =>
      (optList (kvs.map (fun kv => (modifyWithPrefix fuel kv.2 pfx).map (fun w => (kv.1, w))))).map Json.obj
  | fuel + 1, .arr xs, pfx =>
      (optList (xs.map (fun x => modifyWithPrefix fuel x pfx))).map Json.arr
  | _ + 1, v, pfx =>
      some (if strHas (pyStr v) '*' then .str (pfx ++ pyStr v) else v)

/-- Embedding of the id-injection step of `extract_and_modify_attributes`
(`kibana_object_modifier.py`), applied to each input record before it is
transformed:

    attributes = obj.get('attributes', \x7b\x7d)
    attributes['id'] = obj.get('id', '')

`attributes` aliases the record's own `attributes` dict, so the assignment
writes into the input record; the result is the record as it stands after
this step.  When the record has no `attributes` key, the fresh default dict
is mutated instead and the record is unchanged.  `none` models the
`TypeError`/`AttributeError` raised when the record is not a dict or its
`attributes` value is not a dict. -/
def inject_id (record : Json) : Option Json :=
  match record with
  | .obj kvs =>
      match dictLookup kvs "attributes" with
      | some (.obj akvs) =>
          some (.obj (dictSet kvs "attributes"
            (.obj (dictSet akvs "id"
              (match dictLookup kvs "id" with | some v => v | none => .str "")))))
      | some _ => none
      | none => some (.obj kvs)
  | _ => none

/-- Embedding of the per-line record step of `modify_ndjson_file`
(`modify_ndjson_env.py`), after `json.loads` succeeded on the line:

    if 'attributes' in obj:
        obj['attributes'] = modify_dict(obj['attributes'], env_prefix)

For a dict, `in` tests the keys.  For a list, `in` tests the elements, and
a hit makes `obj['attributes']` raise `TypeError`; for a string, `in` is
substring containment with the same consequence; for a number, boolean or
null, `in` itself raises `TypeError`.  All raises are `none`. -/
def transformRecord (fuel : Nat) (j : Json) (env : String) : Option Json :=
  match j with
  | .obj kvs =>
      match dictLookup kvs "attributes" with
      | some a => (modify_dict fuel a env).map (fun a2 => .obj (dictSet kvs "attributes" a2))
      | none => some (.obj kvs)
  | .arr xs =>
      if xs.any (fun x => match x with | .str s => s == "attributes" | _ => false)
      then none else some (.arr xs)
  | .str s => if strHasSub s "attributes" then none else some (.str s)
  | _ => none

/-- Embedding of the line loop of `modify_ndjson_file` over the input's
lines, starting at line number `n` (the source starts at 1):

    for line_num, line in enumerate(infile, start=1):
        try:
            obj = json.loads(line)
            if 'attributes' in obj: ...
            outfile.write(json.dumps(obj) + chr(10))
        except json.JSONDecodeError as e:
            logger.error(f"Failed to parse line ...")

Returns the written output lines and the line numbers reported as parse
errors; `none` models an exception other than the caught `JSONDecodeError`
escaping the loop (or fuel exhaustion). -/
def processLines (fuel : Nat) : List String → String → Nat → Option (List String × List Nat)
  | [], _, _ => some ([], [])
  | line :: rest, env, n =>
      match loads line with
      | none => (processLines fuel rest env (n + 1)).map (fun p => (p.1, n :: p.2))
      | some obj =>
          match transformRecord fuel obj env with
          | none => none
          | some obj2 =>
              match dumps fuel obj2 with
              | none => none
              | some out => (processLines fuel rest env (n + 1)).map (fun p => (out :: p.1, p.2))

/-- Line numbers (from `n`) of the lines that fail to parse as JSON. -/
def expectedErrs : List String → Nat → List Nat
  | [], _ => []
  | line :: rest, n =>
      if (loads line).isNone then n :: expectedErrs rest (n + 1)
      else expectedErrs rest (n + 1)

/-- True when the line holds only whitespace, i.e. Python's
`line.strip()` is falsy. -/
def isBlank (s : String) : Bool :=
  s.data.all (fun c => c == ' ' || c == '\t' || c == '\n' || c == '\r')

/-- Splits text at newline characters (Python's `splitlines` for
LF-delimited text; the scripts both write and read LF line ends). -/
def splitNl : List Char → List (List Char)
  | [] => [[]]
  | '\n' :: rest => [] :: splitNl rest
  | c :: rest =>
      match splitNl rest with
      | l :: ls => (c :: l) :: ls
      | [] => [[c]]

/-- Python's `ndjson_text.splitlines()` followed by the `if line.strip()`
filter of `parse_saved_objects`: the non-blank lines of the text. -/
def ndjsonLines (ndjson_text : String) : List String :=
  ((splitNl ndjson_text.data).map (fun cs => (⟨cs⟩ : String))).filter
    (fun l => !isBlank l)

/-- Embedding of `parse_saved_objects` from `export_kibana_data.py`:

    objects = [json.loads(line) for line in ndjson_text.splitlines() if line.strip()]

There is no error handling: the first line that fails to parse raises
`JSONDecodeError` out of the comprehension, embedded as `none`. -/
def parse_saved_objects (ndjson_text : String) : Option (List Json) :=
  optList ((ndjsonLines ndjson_text).map loads)

/-- Python's `space['id']` from `kibana_export_tool.py`: `none` models the
`KeyError` on a missing key or the `TypeError` on a non-dict space entry. -/
def spaceId : Json → Option Json
  | .obj kvs => dictLookup kvs "id"
  | _ => none

/-- Python's `value == s` for a string `s`: only a string value compares
equal to a string. -/
def jsonEqStr (v : Json) (s : String) : Bool :=
  match v with
  | .str t => t == s
  | _ => false

/-- Embedding of `validate_spaces` from `kibana_export_tool.py`, given the
requested space ids and the already-extracted platform id values:

    valid_spaces = [space['id'] for space in all_spaces]
    invalid_spaces = [space for space in spaces if space not in valid_spaces] if spaces else []
    if invalid_spaces: ... exit(1)

Returns `true` when validation passes (no `exit(1)`). -/
def validate_spaces (spaces : List String) (ids : List Json) : Bool :=
  (if spaces.isEmpty then []
   else spaces.filter (fun s => !(ids.any (fun v => jsonEqStr v s)))).isEmpty

/-- Outcome of the pre-flight part of `main` in `kibana_export_tool.py`. -/
inductive RunOutcome : Type where
  | crashed : RunOutcome
  | aborted : RunOutcome
  | exported (spacesOut : List Json) : RunOutcome

/-- Embedding of the pre-flight sequence of `main` in
`kibana_export_tool.py`:

    all_spaces = get_spaces(session, kibana_url)
    validate_spaces(spaces, all_spaces)
    spaces_to_export = all_spaces if not spaces else
        [space for space in all_spaces if space['id'] in spaces]
    ... for space in spaces_to_export: export_objects(...)

`crashed` models an exception while reading `space['id']`; `aborted` is
`exit(1)` from `validate_spaces`, reached before any export; `exported l`
means validation passed and the export loop runs over exactly `l`. -/
def export_run (spaces : List String) (all_spaces : List Json) : RunOutcome :=
  match optList (all_spaces.map spaceId) with
  | none => .crashed
  | some ids =>
      if validate_spaces spaces ids then
        .exported (if spaces.isEmpty then all_spaces
          else all_spaces.filter (fun sp =>
            match spaceId sp with
            | some v => spaces.any (fun s => jsonEqStr v s)
            | none => false))
      else .aborted

/-- Collecting a per-value comprehension over a dict succeeds with the same
keys in the same order, and the same length. -/
theorem optList_pairs_spec (g : Json → Option Json) :
    ∀ (kvs r : List (String × Json)),
      optList (kvs.map (fun kv => (g kv.2).map (fun w => (kv.1, w)))) = some r →
      r.map Prod.fst = kvs.map Prod.fst ∧ r.length = kvs.length := by
  intro kvs
  induction kvs with
  | nil =>
      intro r h
      simp only [List.map_nil, optList] at h
      cases h
      simp
  | cons kv rest ih =>
      intro r h
      simp only [List.map_cons] at h
      cases hg : g kv.2 with
      | none => rw [hg] at h; simp [optList] at h
      | some w =>
          rw [hg] at h
          simp only [Option.map_some'] at h
          simp only [optList] at h
          cases ho : optList (rest.map (fun kv => (g kv.2).map (fun w => (kv.1, w)))) with
          | none => rw [ho] at h; simp at h
          | some r2 =>
              rw [ho] at h
              simp only [Option.map_some'] at h
              cases h
              have := ih r2 ho
              simp [this.1, this.2]

/-- Collecting a per-element comprehension over a list succeeds with the
same length. -/
theorem optList_map_length {α β : Type} (g : α → Option β) :
    ∀ (xs : List α) (r : List β), optList (xs.map g) = some r → r.length = xs.length := by
  intro xs
  induction xs with
  | nil =>
      intro r h
      simp only [List.map_nil, optList] at h
      cases h
      rfl
  | cons x rest ih =>
      intro r h
      simp only [List.map_cons] at h
      cases hg : g x with
      | none => rw [hg] at h; simp [optList] at h
      | some w =>
          rw [hg] at h
          simp only [optList] at h
          cases ho : optList (rest.map g) with
          | none => rw [ho] at h; simp at h
          | some r2 =>
              rw [ho] at h
              simp only [Option.map_some'] at h
              cases h
              simp [ih r2 ho]

/-- A comprehension whose body raises on some element raises as a whole. -/
theorem optList_map_none {α β : Type} (g : α → Option β) :
    ∀ (xs : List α) (x : α), x ∈ xs → g x = none → optList (xs.map g) = none := by
  intro xs
  induction xs with
  | nil => intro x hx; cases hx
  | cons y rest ih =>
      intro x hx hgx
      rcases List.mem_cons.mp hx with h | h
      · subst h; simp [hgx, optList]
      · simp only [List.map_cons]
        cases hg : g y with
        | none => simp [optList]
        | some w => simp [optList, ih x h hgx]

/-- Setting a key makes it look up to the new value. -/
theorem dictLookup_dictSet_self :
    ∀ (kvs : List (String × Json)) (k : String) (v : Json),
      dictLookup (dictSet kvs k v) k = some v := by
  intro kvs
  induction kvs with
  | nil => intro k v; simp [dictSet, dictLookup]
  | cons kv rest ih =>
      intro k v
      obtain ⟨k1, v1⟩ := kv
      by_cases h : k1 = k
      · subst h; simp [dictSet, dictLookup]
      · simp [dictSet, h, dictLookup, ih]

/-- Setting one key leaves every other key's binding unchanged. -/
theorem dictLookup_dictSet_ne :
    ∀ (kvs : List (String × Json)) (k k2 : String) (v : Json), k2 ≠ k →
      dictLookup (dictSet kvs k v) k2 = dictLookup kvs k2 := by
  intro kvs
  induction kvs with
  | nil =>
      intro k k2 v h
      simp only [dictSet, dictLookup]
      rw [if_neg (fun hh => h hh.symm)]
  | cons kv rest ih =>
      intro k k2 v h
      obtain ⟨k1, v1⟩ := kv
      by_cases hk : k1 = k
      · subst hk
        have h2 : ¬ k1 = k2 := fun hh => h hh.symm
        simp [dictSet, dictLookup, h2]
      · by_cases hk2 : k1 = k2
        · subst hk2
          simp [dictSet, hk, dictLookup]
        · simp [dictSet, hk, dictLookup, hk2, ih _ _ _ h]

/-- Re-setting a key to the value it already has is a no-op
(keys are unique in dicts built by `dictSet`). -/
theorem dictSet_of_lookup_eq :
    ∀ (kvs : List (String × Json)) (k : String) (v : Json),
      dictLookup kvs k = some v → dictSet kvs k v = kvs := by
  intro kvs
  induction kvs with
  | nil => intro k v h; simp [dictLookup] at h
  | cons kv rest ih =>
      intro k v h
      obtain ⟨k1, v1⟩ := kv
      by_cases hk : k1 = k
      · subst hk
        simp only [dictLookup, if_pos rfl] at h
        cases h
        simp [dictSet]
      · simp only [dictLookup, if_neg hk] at h
        simp [dictSet, hk, ih _ _ h]

/-- Digit characters below ten are never the wildcard marker. -/
theorem digitChar_ne_star : ∀ m < 10, Nat.digitChar m ≠ '*' := by decide

/-- Decimal renderings contain no wildcard marker. -/
theorem natDigits_ne_star : ∀ (f n : Nat), '*' ∉ natDigits f n := by
  intro f
  induction f with
  | zero => intro n h; simp [natDigits] at h
  | succ f ih =>
      intro n h
      simp only [natDigits] at h
      by_cases hn : n < 10
      · rw [if_pos hn] at h
        simp only [List.mem_singleton] at h
        exact digitChar_ne_star n hn h.symm
      · rw [if_neg hn] at h
        rcases List.mem_append.mp h with h2 | h2
        · exact ih (n / 10) h2
        · simp only [List.mem_singleton] at h2
          exact digitChar_ne_star (n % 10) (Nat.mod_lt n (by omega)) h2.symm

/-- Python's rendering of an int never contains the wildcard marker. -/
theorem intStr_no_star (i : Int) : strHas (intStr i) '*' = false := by
  have hmem : '*' ∉ (intStr i).data := by
    unfold intStr
    by_cases hneg : i < 0
    · rw [if_pos hneg]
      intro h
      rcases List.mem_append.mp h with h2 | h2
      · simp at h2
      · exact natDigits_ne_star _ _ h2
    · rw [if_neg hneg]
      exact natDigits_ne_star _ _
  unfold strHas
  cases hc : (intStr i).data.contains '*'
  · rfl
  · exact absurd (List.elem_iff.mp hc) hmem

/-- C1: embedded JSON round-trip.  For a string value holding the JSON text
(an object mapping "query" to "status:*"), transforming with tag "test"
returns a string whose re-parsed JSON equals the object mapping "query" to
"test:status:*"; and in general, a string that parses as a JSON mapping is
transformed by recursively transforming the parsed structure with
`modify_dict` and re-serializing the result with `json.dumps`. -/
theorem c1_embedded_json_round_trip :
    (modify_value 9 (.str "\x7b\"query\":\"status:*\"\x7d") "test" =
        some (.str "\x7b\"query\": \"test:status:*\"\x7d")
      ∧ loads "\x7b\"query\": \"test:status:*\"\x7d" =
        some (.obj [("query", .str "test:status:*")]))
    ∧ ∀ (fuel : Nat) (s env : String) (kvs : List (String × Json)),
        loads s = some (.obj kvs) →
        modify_value (fuel + 1) (.str s) env =
          (modify_dict fuel (.obj kvs) env).bind (fun m => (dumps fuel m).map Json.str) := by
  refine ⟨⟨by rfl, by rfl⟩, ?_⟩
  intro fuel s env kvs h
  simp only [modify_value, h, modify_dict]
  cases optList (kvs.map fun kv => (modify_value fuel kv.2 env).map fun w => (kv.1, w)) <;> simp

/-- Witness for C1 at a concrete input. -/
theorem c1_embedded_json_round_trip_witness :
    modify_value 3 (.str "\x7b\"a\": 1\x7d") "dev" =
      (modify_dict 2 (.obj [("a", .num 1)]) "dev").bind (fun m => (dumps 2 m).map Json.str) :=
  c1_embedded_json_round_trip.2 2 "\x7b\"a\": 1\x7d" "dev" [("a", .num 1)] (by rfl)

/-- C2: the claim says the transformer is total and that a string parsing to
a JSON sequence or non-string scalar is recursively transformed and
re-serialized.  The code instead passes the parsed value to `modify_dict`,
whose `d.items()` raises an uncaught `AttributeError` on any non-dict: the
string "123" (parsed to the integer 123) and the string "[1, 2]" (parsed to
a sequence) both make `modify_value` raise, for every tag and every fuel. -/
theorem c2_parsed_nonmapping_string_raises :
    (∀ (fuel : Nat) (env : String), modify_value (fuel + 1) (.str "123") env = none)
    ∧ (∀ (fuel : Nat) (env : String), modify_value (fuel + 1) (.str "[1, 2]") env = none) := by
  refine ⟨fun fuel env => ?_, fun fuel env => ?_⟩ <;> rfl

/-- C3: single prefixing.  transform("foo*bar", "dev") = "dev:foo*bar";
applying the same tag again leaves the result unchanged; and, at any leaf
string (one that does not parse as JSON), the emitted value is either the
input itself or the input prefixed exactly once with "tag:".  The last
conjunct states the same single-prefix-per-pass property for the leaf rule
of `modify_with_prefix`. -/
theorem c3_single_prefixing :
    (∀ fuel : Nat, modify_value (fuel + 1) (.str "foo*bar") "dev" = some (.str "dev:foo*bar"))
    ∧ (∀ fuel : Nat, modify_value (fuel + 1) (.str "dev:foo*bar") "dev" = some (.str "dev:foo*bar"))
    ∧ (∀ (fuel : Nat) (s env : String), loads s = none →
        modify_value (fuel + 1) (.str s) env = some (.str s) ∨
        modify_value (fuel + 1) (.str s) env = some (.str (env ++ ":" ++ s)))
    ∧ (∀ (fuel : Nat) (s pfx : String),
        modifyWithPrefix (fuel + 1) (.str s) pfx = some (.str s) ∨
        modifyWithPrefix (fuel + 1) (.str s) pfx = some (.str (pfx ++ s))) := by
  refine ⟨fun fuel => by rfl, fun fuel => by rfl, ?_, ?_⟩
  · intro fuel s env h
    simp only [modify_value, h]
    cases hb : strHas s '*' && !(strStarts s (env ++ ":"))
    · left; rw [if_neg (by simp [hb])]
    · right; rw [if_pos (by simp_all)]
  · intro fuel s pfx
    have hred : modifyWithPrefix (fuel + 1) (.str s) pfx =
        some (if strHas s '*' then Json.str (pfx ++ s) else Json.str s) := rfl
    rw [hred]
    cases hb : strHas s '*'
    · left; simp
    · right; simp

/-- Witness for C3's conditional conjunct at a concrete input. -/
theorem c3_single_prefixing_witness :
    modify_value 1 (.str "foo*bar") "dev" = some (.str "foo*bar") ∨
    modify_value 1 (.str "foo*bar") "dev" = some (.str ("dev" ++ ":" ++ "foo*bar")) :=
  c3_single_prefixing.2.2.1 0 "foo*bar" "dev" (by rfl)

/-- C4 counterexample: the claim says every marker-free string is returned
unchanged by the transformer, but the marker-free string holding the JSON
text of an object with key "a" and value 1 written without spaces is
re-serialized by `modify_value` with `json.dumps`' default separators,
which inserts a space after the colon and changes the string. -/
theorem c4_marker_free_not_identity_counterexample :
    modify_value 3 (.str "\x7b\"a\":1\x7d") "dev" = some (.str "\x7b\"a\": 1\x7d")
    ∧ strHas "\x7b\"a\":1\x7d" '*' = false
    ∧ "\x7b\"a\": 1\x7d" ≠ "\x7b\"a\":1\x7d" :=
  ⟨by rfl, by rfl, by decide⟩

/-- C4 amended: identity on marker-free strings holds for every string that
does not parse as JSON (for `modify_value`), and for every marker-free
string without further conditions in the `modify_with_prefix` variant. -/
theorem c4_marker_free_identity_amended :
    (∀ (fuel : Nat) (s env : String), loads s = none → strHas s '*' = false →
        modify_value (fuel + 1) (.str s) env = some (.str s))
    ∧ (∀ (fuel : Nat) (s pfx : String), strHas s '*' = false →
        modifyWithPrefix (fuel + 1) (.str s) pfx = some (.str s)) := by
  constructor
  · intro fuel s env h hstar
    simp only [modify_value, h, hstar]
    rw [if_neg (by simp)]
  · intro fuel s pfx hstar
    have hred : modifyWithPrefix (fuel + 1) (.str s) pfx =
        some (if strHas s '*' then Json.str (pfx ++ s) else Json.str s) := rfl
    rw [hred, if_neg (by simp [hstar])]

/-- Witness for C4's amended theorem at a concrete input. -/
theorem c4_marker_free_identity_amended_witness :
    modify_value 1 (.str "hello") "dev" = some (.str "hello") :=
  c4_marker_free_identity_amended.1 0 "hello" "dev" (by rfl) (by rfl)

/-- C5: shape preservation.  A successful `modify_dict` returns a mapping
with exactly the input's key list (same keys, same order, same length); a
successful `modify_value` on a sequence returns a sequence of the same
length; and the `modify_with_prefix` variant preserves a mapping's key list
the same way. -/
theorem c5_shape_preservation :
    (∀ (fuel : Nat) (kvs : List (String × Json)) (env : String) (j : Json),
        modify_dict fuel (.obj kvs) env = some j →
        ∃ kvs2, j = .obj kvs2 ∧ kvs2.map Prod.fst = kvs.map Prod.fst ∧
          kvs2.length = kvs.length)
    ∧ (∀ (fuel : Nat) (xs : List Json) (env : String) (j : Json),
        modify_value (fuel + 1) (.arr xs) env = some j →
        ∃ xs2, j = .arr xs2 ∧ xs2.length = xs.length)
    ∧ (∀ (fuel : Nat) (kvs : List (String × Json)) (pfx : String) (j : Json),
        modifyWithPrefix (fuel + 1) (.obj kvs) pfx = some j →
        ∃ kvs2, j = .obj kvs2 ∧ kvs2.map Prod.fst = kvs.map Prod.fst ∧
          kvs2.length = kvs.length) := by
  refine ⟨?_, ?_, ?_⟩
  · intro fuel kvs env j h
    simp only [modify_dict] at h
    cases ho : optList (kvs.map fun kv => (modify_value fuel kv.2 env).map fun w => (kv.1, w)) with
    | none => rw [ho] at h; simp at h
    | some kvs2 =>
        rw [ho] at h
        simp only [Option.map_some'] at h
        cases h
        have hs := optList_pairs_spec (fun v => modify_value fuel v env) kvs kvs2 ho
        exact ⟨kvs2, rfl, hs.1, hs.2⟩
  · intro fuel xs env j h
    simp only [modify_value] at h
    cases ho : optList (xs.map fun x => modify_value fuel x env) with
    | none => rw [ho] at h; simp at h
    | some xs2 =>
        rw [ho] at h
        simp only [Option.map_some'] at h
        cases h
        exact ⟨xs2, rfl, optList_map_length _ _ _ ho⟩
  · intro fuel kvs pfx j h
    simp only [modifyWithPrefix] at h
    cases ho : optList (kvs.map fun kv => (modifyWithPrefix fuel kv.2 pfx).map fun w => (kv.1, w)) with
    | none => rw [ho] at h; simp at h
    | some kvs2 =>
        rw [ho] at h
        simp only [Option.map_some'] at h
        cases h
        have hs := optList_pairs_spec (fun v => modifyWithPrefix fuel v pfx) kvs kvs2 ho
        exact ⟨kvs2, rfl, hs.1, hs.2⟩

/-- Witness for C5 at a concrete input. -/
theorem c5_shape_preservation_witness :
    ∃ kvs2, (Json.obj [("q", Json.str "dev:a*")]) = .obj kvs2 ∧
      kvs2.map Prod.fst = [("q", Json.str "a*")].map Prod.fst ∧
      kvs2.length = [("q", Json.str "a*")].length :=
  c5_shape_preservation.1 1 [("q", .str "a*")] "dev" (.obj [("q", .str "dev:a*")]) (by rfl)

/-- C6: non-string passthrough.  Null, booleans and numbers are returned
unchanged by `modify_value` for every tag and every fuel, and likewise by
the `modify_with_prefix` variant (whose stringified scalars never contain
the wildcard marker). -/
theorem c6_non_string_passthrough :
    (∀ (fuel : Nat) (env : String), modify_value (fuel + 1) .null env = some .null)
    ∧ (∀ (fuel : Nat) (env : String) (b : Bool),
        modify_value (fuel + 1) (.bool b) env = some (.bool b))
    ∧ (∀ (fuel : Nat) (env : String) (n : Int),
        modify_value (fuel + 1) (.num n) env = some (.num n))
    ∧ (∀ (fuel : Nat) (pfx : String), modifyWithPrefix (fuel + 1) .null pfx = some .null)
    ∧ (∀ (fuel : Nat) (pfx : String) (b : Bool),
        modifyWithPrefix (fuel + 1) (.bool b) pfx = some (.bool b))
    ∧ (∀ (fuel : Nat) (pfx : String) (n : Int),
        modifyWithPrefix (fuel + 1) (.num n) pfx = some (.num n)) := by
  refine ⟨fun fuel env => rfl, fun fuel env b => rfl, fun fuel env n => rfl,
          fun fuel pfx => rfl, fun fuel pfx b => ?_, fun fuel pfx n => ?_⟩
  · cases b <;> rfl
  · have hred : modifyWithPrefix (fuel + 1) (.num n) pfx =
        some (if strHas (intStr n) '*' then Json.str (pfx ++ intStr n) else Json.num n) := rfl
    rw [hred, if_neg (by simp [intStr_no_star])]

/-- C7 counterexample: the claim says processing never mutates the input
records, but the id-injection step of `extract_and_modify_attributes`
writes the record's top-level id into the record's own `attributes` dict
(the local name aliases it), so a record whose attributes lack an "id" key
is visibly changed before transformation. -/
theorem c7_input_mutation_counterexample :
    inject_id (.obj [("id", .str "a1"), ("attributes", .obj [("title", .str "t")])]) =
      some (.obj [("id", .str "a1"),
                  ("attributes", .obj [("title", .str "t"), ("id", .str "a1")])])
    ∧ inject_id (.obj [("id", .str "a1"), ("attributes", .obj [("title", .str "t")])]) ≠
      some (.obj [("id", .str "a1"), ("attributes", .obj [("title", .str "t")])]) := by
  refine ⟨by rfl, ?_⟩
  intro h
  rw [show inject_id (.obj [("id", .str "a1"), ("attributes", .obj [("title", .str "t")])]) =
      some (.obj [("id", .str "a1"),
                  ("attributes", .obj [("title", .str "t"), ("id", .str "a1")])]) from rfl] at h
  simp at h

/-- C7 amended: the only mutation of an input record is the id-injection
step, and it is confined to the `attributes["id"]` slot: every other
top-level binding is unchanged, a record without an `attributes` key is
untouched, and a record whose `attributes["id"]` already equals its
top-level id is returned exactly as it came in.  (The transformer itself,
`modify_with_prefix`, builds a fresh structure and performs no mutation.) -/
theorem c7_id_injection_amended :
    (∀ (kvs : List (String × Json)) (j : Json), inject_id (.obj kvs) = some j →
        ∃ kvs2, j = .obj kvs2 ∧
          ∀ k, k ≠ "attributes" → dictLookup kvs2 k = dictLookup kvs k)
    ∧ (∀ kvs, dictLookup kvs "attributes" = none → inject_id (.obj kvs) = some (.obj kvs))
    ∧ (∀ (kvs akvs : List (String × Json)) (v : Json),
        dictLookup kvs "attributes" = some (.obj akvs) →
        dictLookup kvs "id" = some v →
        dictLookup akvs "id" = some v →
        inject_id (.obj kvs) = some (.obj kvs)) := by
  refine ⟨?_, ?_, ?_⟩
  · intro kvs j h
    simp only [inject_id] at h
    cases ha : dictLookup kvs "attributes" with
    | none =>
        rw [ha] at h
        cases h
        exact ⟨kvs, rfl, fun k _ => rfl⟩
    | some a =>
        rw [ha] at h
        cases a with
        | obj akvs =>
            cases h
            exact ⟨_, rfl, fun k hk => dictLookup_dictSet_ne _ _ _ _ hk⟩
        | null => cases h
        | bool b => cases h
        | num n => cases h
        | str s => cases h
        | arr xs => cases h
  · intro kvs h
    simp [inject_id, h]
  · intro kvs akvs v h1 h2 h3
    simp only [inject_id, h1, h2]
    rw [dictSet_of_lookup_eq _ _ _ h3, dictSet_of_lookup_eq _ _ _ h1]

/-- Witness for C7's amended theorem at a concrete input. -/
theorem c7_id_injection_amended_witness :
    inject_id (.obj [("id", .str "a1"), ("attributes", .obj [("id", .str "a1")])]) =
      some (.obj [("id", .str "a1"), ("attributes", .obj [("id", .str "a1")])]) :=
  c7_id_injection_amended.2.2 [("id", .str "a1"), ("attributes", .obj [("id", .str "a1")])]
    [("id", .str "a1")] (.str "a1") (by rfl) (by rfl) (by rfl)

/-- C8 counterexample: the claim says a line failing to parse is dropped and
the remaining parseable lines are still processed, but in
`parse_saved_objects` (the export path's NDJSON parser) one malformed line
raises out of the comprehension and loses the whole batch, including the
first line, which parses fine on its own. -/
theorem c8_export_parse_fatal_counterexample :
    parse_saved_objects "\x7b\"id\": 1\x7d\nnot json" = none
    ∧ loads "\x7b\"id\": 1\x7d" = some (.obj [("id", .num 1)]) :=
  ⟨by rfl, by rfl⟩

/-- C8 amended: in modify mode (`modify_ndjson_file`) the claim holds - a
successful run reports exactly the line numbers of the lines that fail to
parse and writes one output line per parseable line; in the export path
(`parse_saved_objects`) a single malformed line instead aborts the whole
batch. -/
theorem c8_malformed_line_handling_amended :
    (∀ (fuel : Nat) (ls : List String) (env : String) (n : Nat)
        (outs : List String) (errs : List Nat),
        processLines fuel ls env n = some (outs, errs) →
        errs = expectedErrs ls n ∧
        outs.length = (ls.filter (fun l => (loads l).isSome)).length)
    ∧ (∀ (text l : String), l ∈ ndjsonLines text → loads l = none →
        parse_saved_objects text = none) := by
  constructor
  · intro fuel ls
    induction ls with
    | nil =>
        intro env n outs errs h
        simp only [processLines] at h
        cases h
        simp [expectedErrs]
    | cons line rest ih =>
        intro env n outs errs h
        simp only [processLines] at h
        cases hl : loads line with
        | none =>
            rw [hl] at h
            cases hrec : processLines fuel rest env (n + 1) with
            | none => rw [hrec] at h; simp at h
            | some p =>
                rw [hrec] at h
                simp only [Option.map_some'] at h
                cases h
                have := ih env (n + 1) p.1 p.2 (by rw [hrec])
                simp [expectedErrs, hl, this.1, this.2]
        | some obj =>
            rw [hl] at h
            simp only [] at h
            cases ht : transformRecord fuel obj env with
            | none => rw [ht] at h; simp at h
            | some obj2 =>
                rw [ht] at h
                simp only [] at h
                cases hd : dumps fuel obj2 with
                | none => rw [hd] at h; simp at h
                | some out =>
                    rw [hd] at h
                    simp only [] at h
                    cases hrec : processLines fuel rest env (n + 1) with
                    | none => rw [hrec] at h; simp at h
                    | some p =>
                        rw [hrec] at h
                        simp only [Option.map_some'] at h
                        cases h
                        have := ih env (n + 1) p.1 p.2 (by rw [hrec])
                        simp [expectedErrs, hl, this.1, this.2]
  · intro text l hmem hl
    unfold parse_saved_objects
    exact optList_map_none loads _ l hmem hl

/-- Witness for C8's amended theorem at a concrete two-line batch whose
second line is malformed. -/
theorem c8_malformed_line_handling_amended_witness :
    [2] = expectedErrs ["\x7b\"attributes\": \x7b\"q\": \"x*\"\x7d\x7d", "not json"] 1 ∧
    ([("\x7b\"attributes\": \x7b\"q\": \"dev:x*\"\x7d\x7d" : String)]).length =
      ((["\x7b\"attributes\": \x7b\"q\": \"x*\"\x7d\x7d", "not json"] : List String).filter
        (fun l => (loads l).isSome)).length :=
  c8_malformed_line_handling_amended.1 9
    ["\x7b\"attributes\": \x7b\"q\": \"x*\"\x7d\x7d", "not json"] "dev" 1
    ["\x7b\"attributes\": \x7b\"q\": \"dev:x*\"\x7d\x7d"] [2] (by rfl)

/-- C9: invalid requested space id is fatal pre-flight.  If some requested
space id matches no id in the platform's space list, the run aborts (exit 1
in `validate_spaces`) before the export loop; if every requested id is
present, validation passes and the run reaches the export loop. -/
theorem c9_invalid_space_pre_flight :
    (∀ (spaces : List String) (all_spaces ids : List Json) (s : String),
        optList (all_spaces.map spaceId) = some ids →
        s ∈ spaces →
        ids.any (fun v => jsonEqStr v s) = false →
        export_run spaces all_spaces = .aborted)
    ∧ (∀ (spaces : List String) (all_spaces ids : List Json),
        optList (all_spaces.map spaceId) = some ids →
        (∀ s ∈ spaces, ids.any (fun v => jsonEqStr v s) = true) →
        ∃ l, export_run spaces all_spaces = .exported l) := by
  constructor
  · intro spaces all_spaces ids s hids hmem hinval
    have hne : spaces.isEmpty = false := by
      cases spaces with
      | nil => cases hmem
      | cons a rest => rfl
    have hval : validate_spaces spaces ids = false := by
      unfold validate_spaces
      rw [hne]
      simp only [Bool.false_eq_true, if_false]
      have : s ∈ spaces.filter (fun t => !(ids.any (fun v => jsonEqStr v t))) :=
        List.mem_filter_of_mem hmem (by simp [hinval])
      cases hfe : spaces.filter (fun t => !(ids.any (fun v => jsonEqStr v t))) with
      | nil => rw [hfe] at this; cases this
      | cons b bs => rfl
    unfold export_run
    rw [hids]
    simp only []
    rw [hval]
    simp
  · intro spaces all_spaces ids hids hall
    have hval : validate_spaces spaces ids = true := by
      unfold validate_spaces
      cases he : spaces.isEmpty with
      | true => simp
      | false =>
          simp only [Bool.false_eq_true, if_false]
          rw [List.isEmpty_iff, List.filter_eq_nil_iff]
          intro a ha
          simp [hall a ha]
    unfold export_run
    rw [hids]
    simp only []
    rw [hval]
    exact ⟨_, rfl⟩

/-- Witness for C9 at a concrete invalid request. -/
theorem c9_invalid_space_pre_flight_witness :
    export_run ["missing"] [.obj [("id", .str "admin")]] = .aborted :=
  c9_invalid_space_pre_flight.1 ["missing"] [.obj [("id", .str "admin")]]
    [.str "admin"] "missing" (by rfl) (by simp) (by rfl)

/-- C10: modify mode rewrites only the attributes field.  For every record
(parsed line) that is a mapping and transforms successfully, every
top-level binding other than "attributes" is unchanged in the output
record; a record without an "attributes" key is written back exactly; and
when "attributes" is present its value is exactly the `modify_dict` result
of the input's value. -/
theorem c10_only_attributes_rewritten :
    ∀ (fuel : Nat) (kvs : List (String × Json)) (env : String) (j : Json),
      transformRecord fuel (.obj kvs) env = some j →
      ∃ kvs2, j = .obj kvs2
        ∧ (∀ k, k ≠ "attributes" → dictLookup kvs2 k = dictLookup kvs k)
        ∧ (dictLookup kvs "attributes" = none → kvs2 = kvs)
        ∧ (∀ a, dictLookup kvs "attributes" = some a →
            ∃ a2, modify_dict fuel a env = some a2 ∧
              dictLookup kvs2 "attributes" = some a2) := by
  intro fuel kvs env j h
  simp only [transformRecord] at h
  cases ha : dictLookup kvs "attributes" with
  | none =>
      rw [ha] at h
      simp only [] at h
      cases h
      exact ⟨kvs, rfl, fun k _ => rfl, fun _ => rfl, fun a haa => by cases haa⟩
  | some a =>
      rw [ha] at h
      simp only [] at h
      cases hm : modify_dict fuel a env with
      | none => rw [hm] at h; simp at h
      | some a2 =>
          rw [hm] at h
          simp only [Option.map_some'] at h
          cases h
          refine ⟨_, rfl, fun k hk => dictLookup_dictSet_ne _ _ _ _ hk, ?_, ?_⟩
          · intro hnone; cases hnone
          · intro a3 ha3
            cases ha3
            exact ⟨a2, hm, dictLookup_dictSet_self _ _ _⟩

/-- Witness for C10 at the spec's end-to-end example record. -/
theorem c10_only_attributes_rewritten_witness :
    ∃ kvs2, (Json.obj [("id", Json.str "a1"), ("type", Json.str "search"),
        ("attributes", Json.obj [("title", Json.str "All logs"),
                                 ("query", Json.str "sim:source:*")])]) = .obj kvs2
      ∧ (∀ k, k ≠ "attributes" →
          dictLookup kvs2 k = dictLookup [("id", Json.str "a1"), ("type", Json.str "search"),
            ("attributes", Json.obj [("title", Json.str "All logs"),
                                     ("query", Json.str "source:*")])] k)
      ∧ (dictLookup [("id", Json.str "a1"), ("type", Json.str "search"),
            ("attributes", Json.obj [("title", Json.str "All logs"),
                                     ("query", Json.str "source:*")])] "attributes" = none →
          kvs2 = [("id", Json.str "a1"), ("type", Json.str "search"),
            ("attributes", Json.obj [("title", Json.str "All logs"),
                                     ("query", Json.str "source:*")])])
      ∧ (∀ a, dictLookup [("id", Json.str "a1"), ("type", Json.str "search"),
            ("attributes", Json.obj [("title", Json.str "All logs"),
                                     ("query", Json.str "source:*")])] "attributes" = some a →
          ∃ a2, modify_dict 5 a "sim" = some a2 ∧
            dictLookup kvs2 "attributes" = some a2) :=
  c10_only_attributes_rewritten 5
    [("id", .str "a1"), ("type", .str "search"),
     ("attributes", .obj [("title", .str "All logs"), ("query", .str "source:*")])] "sim"
    (.obj [("id", .str "a1"), ("type", .str "search"),
           ("attributes", .obj [("title", .str "All logs"),
                                ("query", .str "sim:source:*")])]) (by rfl)
